import Mathlib

/-!
Verification of the CareService backend's schedule lifecycle engine.

This file is a shallow embedding of the schedule domain model
(`src/domain/schedule`), the schedule use case
(`application/usecases/schedule`), the schedule repository
(`infrastructure/repository/psql/schedule`) and the slot validation of the
REST controller (`infrastructure/rest/controllers/schedule/Schedule.go`).

Modelling conventions:
- `uuid.UUID` is modelled as `Nat`; `uuid.Nil` is `0`; `uuid.New()` draws a
  fresh nonzero value from a counter kept in the store state.
- `time.Time` is modelled as `Int` (nanoseconds since the epoch);
  `t.Before(u)` is `t < u`, `t.After(u)` is `t > u`, `t.IsZero()` is `t = 0`.
- `float64` geolocation coordinates are carried opaquely; the engine never
  computes on them, so they are modelled as `Int` payloads.
- `map[string]interface{}` field updates are modelled as association lists of
  dynamically typed `GoValue`s; GORM's `Updates` accepts either the column
  name or the Go struct field name as a key, which is why task updates look a
  value up under both spellings.
- The relational store plus the user directory are one explicit state
  (`Store`); repository methods are pure functions of it.  Database-level
  failures (connection errors, SQL errors) are outside the model; the only
  repository failure modelled is "record not found", which is how the GORM
  code paths in the repository behave on a healthy database.
- The process-wide logger is pure logging and is dropped.
-/

namespace Caregiver

/-- Model of `uuid.UUID`; `uuid.Nil` is `0`. -/
abbrev Uuid := Nat

/-- Model of `time.Time` as nanoseconds since the epoch. -/
abbrev GoTime := Int

/-- Opaque payload standing for a `float64` coordinate; never computed on. -/
abbrev Coord := Int

/-- Domain `Location` (`src/domain/schedule`): `Lat`/`Long` are `*float64`. -/
structure Location where
  Lat : Option Coord
  Long : Option Coord
deriving DecidableEq, Repr

/-- Domain `ScheduledSlot` (`src/domain/schedule`). -/
structure ScheduledSlot where
  «from» : GoTime
  «to» : GoTime
deriving DecidableEq, Repr

/-- Domain `Task` (`src/domain/schedule`).  The store-maintained `CreatedAt`
and `UpdatedAt` timestamps are never read by the engine and are omitted. -/
structure Task where
  ID : Uuid
  ScheduleID : Uuid
  Title : String
  Description : String
  Status : String
  Done : Option Bool
  Feedback : Option String
deriving DecidableEq, Repr

/-- Domain `Schedule` (`src/domain/schedule`).  `CreatedAt`/`UpdatedAt` are
store-maintained and never read by the engine; they are omitted. -/
structure Schedule where
  ID : Uuid
  ClientUserID : Uuid
  AssignedUserID : Uuid
  ServiceName : String
  ScheduledSlot : ScheduledSlot
  VisitStatus : String
  CheckinTime : Option GoTime
  CheckoutTime : Option GoTime
  CheckinLocation : Location
  CheckoutLocation : Location
  Tasks : List Task
  ServiceNote : Option String
deriving DecidableEq, Repr

/-- Domain `User` (`src/domain/user`).  Only the identity is kept: the
schedule engine uses the user directory purely as an existence check, and
no claim inspects the remaining payload fields (name, email, location, …). -/
structure User where
  ID : Uuid
deriving DecidableEq, Repr

/-- Modelled from the spec: the `src/domain/errors` package is not under
`src/` (only its call sites are).  Section 7 of the spec gives the error
taxonomy `NotFound`, `ValidationError`, `RepositoryError`/`UnknownError`;
`ResourceAlreadyExists` appears at repository call sites. -/
inductive ErrorType where
  | notFound
  | validationError
  | resourceAlreadyExists
  | unknownError
deriving DecidableEq, Repr

/-- Modelled from the spec: an application error as built by
`NewAppError(err, type)` — a message together with an error kind. -/
structure AppError where
  err : String
  errType : ErrorType
deriving DecidableEq, Repr

/-- A dynamically typed value as stored in a Go `map[string]interface{}`.
The constructors cover every dynamic type the engine and controller place in
field maps: UUIDs, strings, times, plain booleans, `*bool`, `*string`, and
`*float64` coordinates. -/
inductive GoValue where
  | vUuid : Uuid → GoValue
  | vString : String → GoValue
  | vTime : GoTime → GoValue
  | vBool : Bool → GoValue
  | vBoolPtr : Option Bool → GoValue
  | vStringPtr : Option String → GoValue
  | vFloatPtr : Option Coord → GoValue
deriving DecidableEq, Repr

/-- Comma-ok type assertion `value.(uuid.UUID)`. -/
def GoValue.asUuid : GoValue → Option Uuid
  | .vUuid u => some u
  | _ => none

/-- Comma-ok type assertion `value.(string)`. -/
def GoValue.asString : GoValue → Option String
  | .vString s => some s
  | _ => none

/-- A `map[string]interface{}` of field updates.  The engine and controller
only ever build maps with pairwise distinct keys, so an association list with
first-match lookup is an exact model. -/
abbrev FieldMap := List (String × GoValue)

/-- Lookup of a key in a field map (Go map indexing). -/
def fmLookup : FieldMap → String → Option GoValue
  | [], _ => none
  | (k, v) :: rest, key => if k == key then some v else fmLookup rest key

/-- Lookup that accepts either of two key spellings, preferring the first:
GORM's `Updates` resolves a map key against both the column name and the Go
struct field name. -/
def fmLookup2 (m : FieldMap) (k1 k2 : String) : Option GoValue :=
  match fmLookup m k1 with
  | some v => some v
  | none => fmLookup m k2

/-- New value of a `string` column under a field map (single key). -/
def fmString (m : FieldMap) (key : String) (old : String) : String :=
  match fmLookup m key with
  | some (.vString v) => v
  | _ => old

/-- New value of a `uuid` column under a field map (single key). -/
def fmUuid (m : FieldMap) (key : String) (old : Uuid) : Uuid :=
  match fmLookup m key with
  | some (.vUuid v) => v
  | _ => old

/-- New value of a `timestamp` column under a field map (single key). -/
def fmTime (m : FieldMap) (key : String) (old : GoTime) : GoTime :=
  match fmLookup m key with
  | some (.vTime v) => v
  | _ => old

/-- New value of a nullable `timestamp` column: writing a non-pointer
`time.Time` value sets the column. -/
def fmTimePtr (m : FieldMap) (key : String) (old : Option GoTime) : Option GoTime :=
  match fmLookup m key with
  | some (.vTime v) => some v
  | _ => old

/-- New value of a nullable coordinate column: the engine writes `*float64`
values, a nil pointer storing NULL. -/
def fmCoordPtr (m : FieldMap) (key : String) (old : Option Coord) : Option Coord :=
  match fmLookup m key with
  | some (.vFloatPtr v) => v
  | _ => old

/-- New value of a `string` column under either key spelling. -/
def fm2String (m : FieldMap) (k1 k2 : String) (old : String) : String :=
  match fmLookup2 m k1 k2 with
  | some (.vString v) => v
  | _ => old

/-- New value of a nullable `bool` column under either key spelling: a plain
`bool` value sets the column, a `*bool` value stores NULL when nil. -/
def fm2BoolPtr (m : FieldMap) (k1 k2 : String) (old : Option Bool) : Option Bool :=
  match fmLookup2 m k1 k2 with
  | some (.vBool b) => some b
  | some (.vBoolPtr ob) => ob
  | _ => old

/-- New value of a nullable `string` column under either key spelling. -/
def fm2StringPtr (m : FieldMap) (k1 k2 : String) (old : Option String) : Option String :=
  match fmLookup2 m k1 k2 with
  | some (.vString s) => some s
  | some (.vStringPtr os) => os
  | _ => old

/-- The combined persistent state: the schedule store (schedules owning
their tasks), the user directory, and a counter supplying fresh UUIDs. -/
structure Store where
  schedules : List Schedule
  users : List User
  nextId : Nat
deriving DecidableEq, Repr

/-- All tasks of the store, in schedule order (the `tasks` table). -/
def Store.allTasks (st : Store) : List Task :=
  st.schedules.foldr (fun s acc => s.Tasks ++ acc) []

namespace UserRepository

/-- `user.Repository.GetByID`: first-match lookup in the users table,
`NotFound` when absent. -/
def GetByID (st : Store) (id : Uuid) : Except AppError User :=
  match st.users.find? (fun u => u.ID == id) with
  | some u => .ok u
  | none => .error ⟨"record not found", .notFound⟩

end UserRepository

namespace Repository

/-- `Repository.GetScheduleByID` (schedule repository): `First` on the
`schedules` table, mapping `gorm.ErrRecordNotFound` to a `NotFound`
application error. -/
def GetScheduleByID (st : Store) (id : Uuid) : Except AppError Schedule :=
  match st.schedules.find? (fun s => s.ID == id) with
  | some s => .ok s
  | none => .error ⟨"record not found", .notFound⟩

/-- Effect of GORM `Updates(updates)` on one stored schedule row.  The keys
are the column names of the infrastructure model (`visit_status`,
`checkin_time`, `checkin_location_lat`, …).  An entry whose key matches no
column of the `schedules` table, or whose dynamic type does not match its
column, is a database-level concern outside this model and is left inert;
the engine and the controller never produce such an entry with a
column-compatible type. -/
def applyScheduleUpdates (s : Schedule) (m : FieldMap) : Schedule :=
  { s with
    ClientUserID := fmUuid m "client_user_id" s.ClientUserID
    AssignedUserID := fmUuid m "assigned_user_id" s.AssignedUserID
    ServiceName := fmString m "service_name" s.ServiceName
    ScheduledSlot :=
      { «from» := fmTime m "scheduled_slot_from" s.ScheduledSlot.«from»
        «to» := fmTime m "scheduled_slot_to" s.ScheduledSlot.«to» }
    VisitStatus := fmString m "visit_status" s.VisitStatus
    CheckinTime := fmTimePtr m "checkin_time" s.CheckinTime
    CheckoutTime := fmTimePtr m "checkout_time" s.CheckoutTime
    CheckinLocation :=
      { Lat := fmCoordPtr m "checkin_location_lat" s.CheckinLocation.Lat
        Long := fmCoordPtr m "checkin_location_long" s.CheckinLocation.Long }
    CheckoutLocation :=
      { Lat := fmCoordPtr m "checkout_location_lat" s.CheckoutLocation.Lat
        Long := fmCoordPtr m "checkout_location_long" s.CheckoutLocation.Long } }

/-- `Repository.UpdateSchedule`: fetch the row (`NotFound` when absent),
apply the partial update, and return the re-read row. -/
def UpdateSchedule (st : Store) (id : Uuid) (updates : FieldMap) :
    Except AppError Schedule × Store :=
  match st.schedules.find? (fun s => s.ID == id) with
  | none => (.error ⟨"record not found", .notFound⟩, st)
  | some sch =>
    (.ok (applyScheduleUpdates sch updates),
     { st with
        schedules := st.schedules.map
          (fun s => if s.ID == id then applyScheduleUpdates s updates else s) })

/-- Effect of GORM `Updates(updates)` on one stored task row.  GORM resolves
each key against the column name and the Go field name, so both spellings
are accepted (`EndSchedule` uses `status`/`done`/`feedback`,
`UpdateTaskStatus` uses `Status`/`Done`/`Feedback`).  `Title`/`Description`
columns are updatable in principle but no engine path passes those keys. -/
def applyTaskUpdates (t : Task) (m : FieldMap) : Task :=
  { t with
    Status := fm2String m "status" "Status" t.Status
    Done := fm2BoolPtr m "done" "Done" t.Done
    Feedback := fm2StringPtr m "feedback" "Feedback" t.Feedback }

/-- Replace every task row with the given id by its updated value. -/
def updateTaskIn (st : Store) (taskID : Uuid) (m : FieldMap) : Store :=
  { st with
    schedules := st.schedules.map
      (fun s =>
        { s with
          Tasks := s.Tasks.map
            (fun t => if t.ID == taskID then applyTaskUpdates t m else t) }) }

/-- `Repository.UpdateTask`: GORM `Updates` on `tasks` touches zero rows for
an unknown id without error, after which the re-read `First` fails — so a
missing task surfaces as a lookup failure and the store is unchanged. -/
def UpdateTask (st : Store) (taskID : Uuid) (updates : FieldMap) :
    Except AppError Task × Store :=
  match st.allTasks.find? (fun t => t.ID == taskID) with
  | none => (.error ⟨"record not found", .notFound⟩, st)
  | some t => (.ok (applyTaskUpdates t updates), updateTaskIn st taskID updates)

/-- `Repository.Create`: insert the schedule, the database generating a
fresh id when the given one is `uuid.Nil`, and stamping the owning schedule
id onto the task rows.  The engine assigns task ids itself, so the
database-side task id default is never exercised and is not modelled. -/
def Create (st : Store) (newSchedule : Schedule) : Except AppError Schedule × Store :=
  let sid := if newSchedule.ID == 0 then st.nextId + 1 else newSchedule.ID
  let n1 := if newSchedule.ID == 0 then st.nextId + 1 else st.nextId
  let sched :=
    { newSchedule with
        ID := sid
        Tasks := newSchedule.Tasks.map (fun t => { t with ScheduleID := sid }) }
  (.ok sched, { st with schedules := st.schedules ++ [sched], nextId := n1 })

/-- `Repository.GetSchedulesInProgressByAssignedUserID`: filter on
`assigned_user_id = ? AND visit_status = 'in_progress'`.  On a healthy
database this query cannot fail, so the error branch of the Go signature is
not modelled. -/
def GetSchedulesInProgressByAssignedUserID (st : Store) (assignedUserID : Uuid) :
    List Schedule :=
  st.schedules.filter
    (fun s => s.AssignedUserID == assignedUserID && s.VisitStatus == "in_progress")

end Repository

namespace ScheduleUseCase

/-- Field map written by `StartSchedule` on success. -/
def startUpdates (timestamp : GoTime) (location : Location) : FieldMap :=
  [("visit_status", .vString "in_progress"),
   ("checkin_time", .vTime timestamp),
   ("checkin_location_lat", .vFloatPtr location.Lat),
   ("checkin_location_long", .vFloatPtr location.Long)]

/-- `ScheduleUseCase.StartSchedule`: fetch, require `upcoming` status, reject
a timestamp strictly before the scheduled start, reject when any other
schedule of the assignee is `in_progress`, then check in. -/
def StartSchedule (st : Store) (scheduleID : Uuid) (timestamp : GoTime)
    (location : Location) : Except AppError Schedule × Store :=
  match Repository.GetScheduleByID st scheduleID with
  | .error e => (.error e, st)
  | .ok schedule =>
    if schedule.VisitStatus != "upcoming" then
      (.error ⟨"schedule is not in 'upcoming' status", .validationError⟩, st)
    else if timestamp < schedule.ScheduledSlot.«from» then
      (.error ⟨"cannot start schedule before the scheduled start time", .validationError⟩, st)
    else if (Repository.GetSchedulesInProgressByAssignedUserID st schedule.AssignedUserID).length > 0 then
      (.error ⟨"cannot start schedule: another schedule is already in progress for this user", .validationError⟩, st)
    else
      Repository.UpdateSchedule st scheduleID (startUpdates timestamp location)

/-- Field map written by `EndSchedule` on the schedule row. -/
def endUpdates (timestamp : GoTime) (location : Location) : FieldMap :=
  [("visit_status", .vString "completed"),
   ("checkout_time", .vTime timestamp),
   ("checkout_location_lat", .vFloatPtr location.Lat),
   ("checkout_location_long", .vFloatPtr location.Long)]

/-- Field map written by `EndSchedule` for one task of its task list. -/
def endTaskUpdates (task : Task) : FieldMap :=
  [("status", .vString task.Status),
   ("done", .vBoolPtr task.Done),
   ("feedback", .vStringPtr task.Feedback)]

/-- The per-task update loop of `EndSchedule`: each task update's error is
logged and dropped, and the loop always continues with the next task. -/
def applyTaskLoop (st : Store) : List Task → Store
  | [] => st
  | task :: rest =>
    applyTaskLoop (Repository.UpdateTask st task.ID (endTaskUpdates task)).2 rest

/-- `ScheduleUseCase.EndSchedule`: fetch, require `in_progress` status, check
out (completing the schedule), then best-effort apply the task updates.  The
returned schedule is the one read back from the check-out write; task-update
failures are never surfaced. -/
def EndSchedule (st : Store) (scheduleID : Uuid) (timestamp : GoTime)
    (location : Location) (tasks : List Task) : Except AppError Schedule × Store :=
  match Repository.GetScheduleByID st scheduleID with
  | .error e => (.error e, st)
  | .ok schedule =>
    if schedule.VisitStatus != "in_progress" then
      (.error ⟨"schedule is not in 'in_progress' status", .validationError⟩, st)
    else
      let r := Repository.UpdateSchedule st scheduleID (endUpdates timestamp location)
      match r.1 with
      | .error e => (.error e, r.2)
      | .ok updatedSchedule => (.ok updatedSchedule, applyTaskLoop r.2 tasks)

/-- `ScheduleUseCase.UpdateTaskStatus`: unconditional field update of one
task; the keys are the Go struct field spellings. -/
def UpdateTaskStatus (st : Store) (taskID : Uuid) (status : String) (done : Bool)
    (feedback : String) : Except AppError Task × Store :=
  Repository.UpdateTask st taskID
    [("Status", .vString status), ("Done", .vBool done), ("Feedback", .vString feedback)]

/-- The task-default loop of `ScheduleUseCase.CreateSchedule`: a task whose
id is `uuid.Nil` receives a fresh one, and — unconditionally, as in the
source — every task's status is set to `"pending"`. -/
def assignTaskDefaults (n : Nat) : List Task → List Task × Nat
  | [] => ([], n)
  | t :: rest =>
    let t1 := if t.ID == 0 then { t with ID := n + 1, Status := "pending" }
              else { t with Status := "pending" }
    let n1 := if t.ID == 0 then n + 1 else n
    (t1 :: (assignTaskDefaults n1 rest).1, (assignTaskDefaults n1 rest).2)

/-- `ScheduleUseCase.CreateSchedule`: both user references must exist
(`NotFound` naming the missing role otherwise); the visit status is forced to
`"upcoming"`, task defaults are assigned, and the schedule is persisted. -/
def CreateSchedule (st : Store) (newSchedule : Schedule) :
    Except AppError Schedule × Store :=
  match UserRepository.GetByID st newSchedule.ClientUserID with
  | .error _ => (.error ⟨"client user not found", .notFound⟩, st)
  | .ok _ =>
  match UserRepository.GetByID st newSchedule.AssignedUserID with
  | .error _ => (.error ⟨"assigned user not found", .notFound⟩, st)
  | .ok _ =>
    let r := assignTaskDefaults st.nextId newSchedule.Tasks
    Repository.Create { st with nextId := r.2 }
      { newSchedule with VisitStatus := "upcoming", Tasks := r.1 }

/-- The valid visit status labels of `UpdateSchedule` (the `validStatuses`
set literal in the source). -/
def validStatuses (status : String) : Bool :=
  status == "upcoming" || status == "in_progress" ||
  status == "completed" || status == "cancelled"

/-- The user-existence guard of `UpdateSchedule`, written once for both the
`client_user_id` and the `assigned_user_id` entry: it fires only when the
entry's dynamic type is `uuid.UUID` (the comma-ok type assertion in the
source), and rejects with `NotFound` when the referenced user is missing. -/
def updateScheduleUserCheck (st : Store) (key msg : String) (updates : FieldMap) :
    Except AppError Unit :=
  match (fmLookup updates key).bind GoValue.asUuid with
  | none => .ok ()
  | some userID =>
    match UserRepository.GetByID st userID with
    | .error _ => .error ⟨msg, .notFound⟩
    | .ok _ => .ok ()

/-- The visit-status guard of `UpdateSchedule`: when a `visit_status` entry
of dynamic type `string` is present, the label must be valid, and a schedule
already `completed` or `cancelled` cannot change to a different status. -/
def updateScheduleStatusCheck (existingSchedule : Schedule) (updates : FieldMap) :
    Except AppError Unit :=
  match (fmLookup updates "visit_status").bind GoValue.asString with
  | none => .ok ()
  | some status =>
    if !(validStatuses status) then
      .error ⟨"invalid visit status", .validationError⟩
    else if existingSchedule.VisitStatus == "completed" && status != "completed" then
      .error ⟨"cannot change status from completed", .validationError⟩
    else if existingSchedule.VisitStatus == "cancelled" && status != "cancelled" then
      .error ⟨"cannot change status from cancelled", .validationError⟩
    else
      .ok ()

/-- `ScheduleUseCase.UpdateSchedule`: fetch (`NotFound` wrapped as "schedule
not found"), run the client-user, assigned-user and visit-status guards in
source order, then delegate the partial update to the store. -/
def UpdateSchedule (st : Store) (scheduleID : Uuid) (updates : FieldMap) :
    Except AppError Schedule × Store :=
  match Repository.GetScheduleByID st scheduleID with
  | .error _ => (.error ⟨"schedule not found", .notFound⟩, st)
  | .ok existingSchedule =>
    match updateScheduleUserCheck st "client_user_id" "new client user not found" updates with
    | .error e => (.error e, st)
    | .ok _ =>
    match updateScheduleUserCheck st "assigned_user_id" "new assigned user not found" updates with
    | .error e => (.error e, st)
    | .ok _ =>
    match updateScheduleStatusCheck existingSchedule updates with
    | .error e => (.error e, st)
    | .ok _ => Repository.UpdateSchedule st scheduleID updates

/-- `ScheduleUseCase.GetScheduleWithClientInfo`: the schedule must exist; a
failed client lookup is logged and returns the schedule without a client. -/
def GetScheduleWithClientInfo (st : Store) (id : Uuid) :
    Except AppError (Schedule × Option User) :=
  match Repository.GetScheduleByID st id with
  | .error e => .error e
  | .ok schedule =>
    match UserRepository.GetByID st schedule.ClientUserID with
    | .error _ => .ok (schedule, none)
    | .ok client => .ok (schedule, some client)

end ScheduleUseCase

/-- REST request slot (`controllers/schedule/Structures.go`), with the zero
`time.Time` modelled as `0`. -/
structure ScheduledSlotRequest where
  From : GoTime
  To : GoTime
deriving DecidableEq, Repr

/-- REST `TaskRequest` of `CreateScheduleRequest`. -/
structure TaskRequest where
  Title : String
  Description : String
deriving DecidableEq, Repr

/-- REST `CreateScheduleRequest` after JSON binding. -/
structure CreateScheduleRequest where
  ClientUserID : Uuid
  AssignedUserID : Uuid
  ServiceName : String
  ScheduledSlot : ScheduledSlotRequest
  Tasks : List TaskRequest
deriving DecidableEq, Repr

/-- REST `UpdateScheduleRequest` after JSON binding: absent fields arrive as
Go zero values (`uuid.Nil`, the empty string, a nil slot pointer). -/
structure UpdateScheduleRequest where
  ClientUserID : Uuid
  AssignedUserID : Uuid
  ServiceName : String
  ScheduledSlot : Option ScheduledSlotRequest
  VisitStatus : String
deriving DecidableEq, Repr

namespace Controller

/-- `Controller.CreateSchedule` (`Schedule.go`): after binding, require a
client id, a fully given slot with `From <= To`, and at least one task;
tasks are passed down with status `"pending"` and no id; the visit status is
sent as `"upcoming"`. -/
def CreateSchedule (st : Store) (request : CreateScheduleRequest) :
    Except AppError Schedule × Store :=
  if request.ClientUserID == 0 then
    (.error ⟨"ClientUserID is required", .validationError⟩, st)
  else if request.ScheduledSlot.From == 0 || request.ScheduledSlot.To == 0 then
    (.error ⟨"ScheduledSlot (From, To) is required", .validationError⟩, st)
  else if request.ScheduledSlot.From > request.ScheduledSlot.To then
    (.error ⟨"ScheduledSlot 'From' cannot be after 'To'", .validationError⟩, st)
  else if request.Tasks.length == 0 then
    (.error ⟨"at least one task is required", .validationError⟩, st)
  else
    let domainTasks := request.Tasks.map (fun taskReq =>
      { ID := 0, ScheduleID := 0, Title := taskReq.Title,
        Description := taskReq.Description, Status := "pending",
        Done := none, Feedback := none : Task })
    let newSchedule : Schedule :=
      { ID := 0
        ClientUserID := request.ClientUserID
        AssignedUserID := request.AssignedUserID
        ServiceName := request.ServiceName
        ScheduledSlot := ⟨request.ScheduledSlot.From, request.ScheduledSlot.To⟩
        VisitStatus := "upcoming"
        CheckinTime := none
        CheckoutTime := none
        CheckinLocation := ⟨none, none⟩
        CheckoutLocation := ⟨none, none⟩
        Tasks := domainTasks
        ServiceNote := none }
    ScheduleUseCase.CreateSchedule st newSchedule

/-- The update map built by `Controller.UpdateSchedule`: each present field
contributes its store column entry, the slot contributing both bounds.  In
the source the map is populated between the slot validations; building it as
one pure value is observationally the same because map construction has no
effect. -/
def updatesFor (request : UpdateScheduleRequest) : FieldMap :=
  (if request.ClientUserID != 0 then
    [("client_user_id", GoValue.vUuid request.ClientUserID)] else []) ++
  (if request.AssignedUserID != 0 then
    [("assigned_user_id", GoValue.vUuid request.AssignedUserID)] else []) ++
  (if request.ServiceName != "" then
    [("service_name", GoValue.vString request.ServiceName)] else []) ++
  (if request.VisitStatus != "" then
    [("visit_status", GoValue.vString request.VisitStatus)] else []) ++
  (match request.ScheduledSlot with
   | some slot =>
     [("scheduled_slot_from", GoValue.vTime slot.From),
      ("scheduled_slot_to", GoValue.vTime slot.To)]
   | none => [])

/-- The tail of `Controller.UpdateSchedule` after the slot validations: an
empty update map is rejected, otherwise the engine performs the update. -/
def finishUpdate (st : Store) (scheduleID : Uuid) (request : UpdateScheduleRequest) :
    Except AppError Schedule × Store :=
  if (updatesFor request).length == 0 then
    (.error ⟨"No valid fields to update", .validationError⟩, st)
  else
    ScheduleUseCase.UpdateSchedule st scheduleID (updatesFor request)

/-- `Controller.UpdateSchedule` (`Schedule.go`): the schedule must exist
(via `GetScheduleWithClientInfo`); a present slot must carry both bounds and
satisfy `From <= To`; then the engine is called with the update map. -/
def UpdateSchedule (st : Store) (scheduleID : Uuid) (request : UpdateScheduleRequest) :
    Except AppError Schedule × Store :=
  match ScheduleUseCase.GetScheduleWithClientInfo st scheduleID with
  | .error e => (.error e, st)
  | .ok _ =>
    match request.ScheduledSlot with
    | some slot =>
      if slot.From == 0 || slot.To == 0 then
        (.error ⟨"Both From and To dates must be provided for ScheduledSlot", .validationError⟩, st)
      else if slot.From > slot.To then
        (.error ⟨"ScheduledSlot 'From' cannot be after 'To'", .validationError⟩, st)
      else
        finishUpdate st scheduleID request
    | none => finishUpdate st scheduleID request

end Controller

/-! Concrete fixtures used by witnesses and counterexamples. -/

/-- A pending task owned by the sample schedule. -/
def task7 : Task :=
  { ID := 7, ScheduleID := 1, Title := "Task 1", Description := "",
    Status := "pending", Done := none, Feedback := none }

/-- A sample `upcoming` schedule with slot `[100, 200]`. -/
def schedUpcoming : Schedule :=
  { ID := 1, ClientUserID := 1, AssignedUserID := 2, ServiceName := "Test Service",
    ScheduledSlot := ⟨100, 200⟩, VisitStatus := "upcoming",
    CheckinTime := none, CheckoutTime := none,
    CheckinLocation := ⟨none, none⟩, CheckoutLocation := ⟨none, none⟩,
    Tasks := [task7], ServiceNote := none }

/-- The sample schedule after completion. -/
def schedCompleted : Schedule := { schedUpcoming with ID := 2, VisitStatus := "completed" }

/-- The sample schedule while in progress. -/
def schedInProgress : Schedule := { schedUpcoming with ID := 3, VisitStatus := "in_progress" }

/-- A store with the `upcoming` sample schedule and its two users. -/
def baseStore : Store := { schedules := [schedUpcoming], users := [⟨1⟩, ⟨2⟩], nextId := 100 }

/-- A store holding a completed schedule. -/
def storeCompleted : Store := { schedules := [schedCompleted], users := [⟨1⟩], nextId := 100 }

/-- A store holding an in-progress schedule. -/
def storeInProgress : Store := { schedules := [schedInProgress], users := [⟨1⟩], nextId := 100 }

/-- A store with the sample schedule but an empty user directory. -/
def storeNoUsers : Store := { schedules := [schedUpcoming], users := [], nextId := 100 }

/-- A sample check-in/check-out location. -/
def locSample : Location := ⟨some 10, some 20⟩

/-! Shared lemmas about the repository. -/

/-- A successful `GetScheduleByID` is exactly a successful table lookup. -/
theorem find?_of_getScheduleOk {st : Store} {id : Uuid} {sched : Schedule}
    (h : Repository.GetScheduleByID st id = .ok sched) :
    st.schedules.find? (fun s => s.ID == id) = some sched := by
  unfold Repository.GetScheduleByID at h
  cases hf : st.schedules.find? (fun s => s.ID == id) with
  | none => rw [hf] at h; exact absurd h (by simp)
  | some s =>
    rw [hf] at h
    simp only [Except.ok.injEq] at h
    exact congrArg some h

/-- `Repository.UpdateSchedule` on a present row applies the field map and
returns the updated row. -/
theorem repoUpdateSchedule_found {st : Store} {id : Uuid} {sched : Schedule} (m : FieldMap)
    (h : st.schedules.find? (fun s => s.ID == id) = some sched) :
    Repository.UpdateSchedule st id m =
      (.ok (Repository.applyScheduleUpdates sched m),
       { st with
          schedules := st.schedules.map
            (fun s => if s.ID == id then Repository.applyScheduleUpdates s m else s) }) := by
  unfold Repository.UpdateSchedule
  rw [h]

/-- A failing `Repository.UpdateSchedule` (missing row) leaves the store
untouched. -/
theorem repoUpdateSchedule_error_state {st : Store} {id : Uuid} {m : FieldMap} {e : AppError}
    (h : (Repository.UpdateSchedule st id m).1 = .error e) :
    (Repository.UpdateSchedule st id m).2 = st := by
  unfold Repository.UpdateSchedule at h ⊢
  rcases hf : st.schedules.find? (fun s => s.ID == id) with _ | sch
  · rw [hf]
  · rw [hf] at h
    exact absurd h (by simp)

/-- The engine's `UpdateSchedule` reduces to its status gate followed by the
store call once the schedule is found and both user guards pass. -/
theorem engineUpdateSchedule_reduce {st : Store} {id : Uuid} {m : FieldMap} {sched : Schedule}
    (hfind : Repository.GetScheduleByID st id = .ok sched)
    (hclient : ScheduleUseCase.updateScheduleUserCheck st "client_user_id" "new client user not found" m = .ok ())
    (hassigned : ScheduleUseCase.updateScheduleUserCheck st "assigned_user_id" "new assigned user not found" m = .ok ()) :
    ScheduleUseCase.UpdateSchedule st id m =
      match ScheduleUseCase.updateScheduleStatusCheck sched m with
      | .error e => (.error e, st)
      | .ok _ => Repository.UpdateSchedule st id m := by
  unfold ScheduleUseCase.UpdateSchedule
  rw [hfind, hclient, hassigned]

/-- The status gate, unfolded for a map carrying a string `visit_status`. -/
theorem statusCheck_some {sched : Schedule} {m : FieldMap} {v : String}
    (hv : fmLookup m "visit_status" = some (.vString v)) :
    ScheduleUseCase.updateScheduleStatusCheck sched m =
      (if !(ScheduleUseCase.validStatuses v) then
        .error ⟨"invalid visit status", .validationError⟩
      else if sched.VisitStatus == "completed" && v != "completed" then
        .error ⟨"cannot change status from completed", .validationError⟩
      else if sched.VisitStatus == "cancelled" && v != "cancelled" then
        .error ⟨"cannot change status from cancelled", .validationError⟩
      else
        .ok ()) := by
  unfold ScheduleUseCase.updateScheduleStatusCheck
  rw [hv]
  rfl

/-- The status gate passes when the map has no string `visit_status` entry. -/
theorem statusCheck_none {sched : Schedule} {m : FieldMap}
    (hv : (fmLookup m "visit_status").bind GoValue.asString = none) :
    ScheduleUseCase.updateScheduleStatusCheck sched m = .ok () := by
  unfold ScheduleUseCase.updateScheduleStatusCheck
  rw [hv]

/-- A user guard passes when its entry is absent or not `uuid.UUID`-typed. -/
theorem userCheck_nonUuid {st : Store} {key msg : String} {m : FieldMap}
    (h : (fmLookup m key).bind GoValue.asUuid = none) :
    ScheduleUseCase.updateScheduleUserCheck st key msg m = .ok () := by
  unfold ScheduleUseCase.updateScheduleUserCheck
  rw [h]

/-- The visit status written by a field map carrying a string entry. -/
theorem applied_visitStatus {sched : Schedule} {m : FieldMap} {v : String}
    (hv : fmLookup m "visit_status" = some (.vString v)) :
    (Repository.applyScheduleUpdates sched m).VisitStatus = v := by
  show fmString m "visit_status" sched.VisitStatus = v
  unfold fmString
  rw [hv]

/-- `StartSchedule` reduces to its guard chain once the schedule is found. -/
theorem startSchedule_reduce {st : Store} {id : Uuid} {sched : Schedule}
    (ts : GoTime) (loc : Location)
    (hfind : Repository.GetScheduleByID st id = .ok sched) :
    ScheduleUseCase.StartSchedule st id ts loc =
      (if sched.VisitStatus != "upcoming" then
        (.error ⟨"schedule is not in 'upcoming' status", .validationError⟩, st)
      else if ts < sched.ScheduledSlot.«from» then
        (.error ⟨"cannot start schedule before the scheduled start time", .validationError⟩, st)
      else if (Repository.GetSchedulesInProgressByAssignedUserID st sched.AssignedUserID).length > 0 then
        (.error ⟨"cannot start schedule: another schedule is already in progress for this user", .validationError⟩, st)
      else
        Repository.UpdateSchedule st id (ScheduleUseCase.startUpdates ts loc)) := by
  unfold ScheduleUseCase.StartSchedule
  rw [hfind]

/-- `EndSchedule` reduces to its guard chain once the schedule is found. -/
theorem endSchedule_reduce {st : Store} {id : Uuid} {sched : Schedule}
    (ts : GoTime) (loc : Location) (tasks : List Task)
    (hfind : Repository.GetScheduleByID st id = .ok sched) :
    ScheduleUseCase.EndSchedule st id ts loc tasks =
      (if sched.VisitStatus != "in_progress" then
        (.error ⟨"schedule is not in 'in_progress' status", .validationError⟩, st)
      else
        match (Repository.UpdateSchedule st id (ScheduleUseCase.endUpdates ts loc)).1 with
        | .error e => (.error e, (Repository.UpdateSchedule st id (ScheduleUseCase.endUpdates ts loc)).2)
        | .ok updatedSchedule =>
          (.ok updatedSchedule,
           ScheduleUseCase.applyTaskLoop
             (Repository.UpdateSchedule st id (ScheduleUseCase.endUpdates ts loc)).2 tasks)) := by
  unfold ScheduleUseCase.EndSchedule
  rw [hfind]

/-! Claim theorems. -/

/-- C7: for an existing schedule in `upcoming` status, `StartSchedule`'s
temporal check is exactly a lower bound — the temporal `ValidationError`
("cannot start before scheduled time") is returned if and only if the
supplied timestamp is strictly before `scheduledSlot.from`; any timestamp at
or after it, including timestamps after `scheduledSlot.to`, passes the
temporal check (no upper-bound check exists). -/
theorem startSchedule_temporal_lower_bound_only
    (st : Store) (id : Uuid) (ts : GoTime) (loc : Location) (sched : Schedule)
    (hfind : Repository.GetScheduleByID st id = .ok sched)
    (hstatus : sched.VisitStatus = "upcoming") :
    ((ScheduleUseCase.StartSchedule st id ts loc).1
        = .error ⟨"cannot start schedule before the scheduled start time", .validationError⟩)
      ↔ ts < sched.ScheduledSlot.«from» := by
  rw [startSchedule_reduce ts loc hfind, hstatus,
      repoUpdateSchedule_found (ScheduleUseCase.startUpdates ts loc) (find?_of_getScheduleOk hfind)]
  rw [if_neg (show ¬(("upcoming" != "upcoming") = true) from by decide)]
  by_cases hts : ts < sched.ScheduledSlot.«from»
  · rw [if_pos hts]
    exact iff_of_true rfl hts
  · rw [if_neg hts]
    refine iff_of_false ?_ hts
    intro h
    split at h
    · simp only [Except.error.injEq, AppError.mk.injEq] at h
      exact absurd h.1 (by decide)
    · exact absurd h (by simp)

/-- C7 witness: on the sample store, starting at time 50 (before slot start
100) is exactly the temporal rejection. -/
theorem startSchedule_temporal_lower_bound_only_witness :
    ((ScheduleUseCase.StartSchedule baseStore 1 50 locSample).1
        = .error ⟨"cannot start schedule before the scheduled start time", .validationError⟩)
      ↔ (50 : GoTime) < schedUpcoming.ScheduledSlot.«from» :=
  startSchedule_temporal_lower_bound_only baseStore 1 50 locSample schedUpcoming rfl rfl

/-- C2: once a schedule's visit status is `completed` or `cancelled`, an
`UpdateSchedule` whose field map requests a different string status fails
with a `ValidationError` and leaves the store (hence the stored status)
untouched, while a same-state update is permitted and keeps the status. -/
theorem updateSchedule_terminal_immutable
    (st : Store) (id : Uuid) (m : FieldMap) (sched : Schedule) (v : String)
    (hfind : Repository.GetScheduleByID st id = .ok sched)
    (hterm : sched.VisitStatus = "completed" ∨ sched.VisitStatus = "cancelled")
    (hv : fmLookup m "visit_status" = some (.vString v))
    (hclient : ScheduleUseCase.updateScheduleUserCheck st "client_user_id" "new client user not found" m = .ok ())
    (hassigned : ScheduleUseCase.updateScheduleUserCheck st "assigned_user_id" "new assigned user not found" m = .ok ()) :
    (v ≠ sched.VisitStatus →
       ∃ msg, (ScheduleUseCase.UpdateSchedule st id m).1 = .error ⟨msg, .validationError⟩
         ∧ (ScheduleUseCase.UpdateSchedule st id m).2 = st)
    ∧ (v = sched.VisitStatus →
       ∃ s2, (ScheduleUseCase.UpdateSchedule st id m).1 = .ok s2
         ∧ s2.VisitStatus = sched.VisitStatus) := by
  rw [engineUpdateSchedule_reduce hfind hclient hassigned, statusCheck_some hv]
  constructor
  · intro hne
    cases hval : ScheduleUseCase.validStatuses v with
    | false =>
      rw [if_pos (show (!false) = true from rfl)]
      exact ⟨"invalid visit status", rfl, rfl⟩
    | true =>
      rw [if_neg (show ¬((!true) = true) from by decide)]
      rcases hterm with hc | hc
      · have hvb : (v != "completed") = true := by
          rw [hc] at hne
          exact bne_iff_ne.mpr hne
        rw [hc, if_pos (show (("completed" == "completed") && (v != "completed")) = true from by
          rw [hvb]; rfl)]
        exact ⟨"cannot change status from completed", rfl, rfl⟩
      · have hvb : (v != "cancelled") = true := by
          rw [hc] at hne
          exact bne_iff_ne.mpr hne
        rw [hc, if_neg (show ¬((("cancelled" == "completed") && (v != "completed")) = true) from by
          simp), if_pos (show (("cancelled" == "cancelled") && (v != "cancelled")) = true from by
          rw [hvb]; rfl)]
        exact ⟨"cannot change status from cancelled", rfl, rfl⟩
  · intro heq
    have hval : ScheduleUseCase.validStatuses v = true := by
      rw [heq]
      rcases hterm with hc | hc <;> rw [hc] <;> decide
    rw [if_neg (show ¬((!ScheduleUseCase.validStatuses v) = true) from by rw [hval]; decide)]
    rcases hterm with hc | hc
    · have hvb : (v != "completed") = false := by rw [heq, hc]; decide
      rw [hc, if_neg (show ¬((("completed" == "completed") && (v != "completed")) = true) from by
          rw [hvb]; simp),
        if_neg (show ¬((("completed" == "cancelled") && (v != "cancelled")) = true) from by simp),
        repoUpdateSchedule_found m (find?_of_getScheduleOk hfind)]
      exact ⟨_, rfl, by rw [applied_visitStatus hv, heq, hc]⟩
    · have hvb : (v != "cancelled") = false := by rw [heq, hc]; decide
      rw [hc, if_neg (show ¬((("cancelled" == "completed") && (v != "completed")) = true) from by
          simp),
        if_neg (show ¬((("cancelled" == "cancelled") && (v != "cancelled")) = true) from by
          rw [hvb]; simp),
        repoUpdateSchedule_found m (find?_of_getScheduleOk hfind)]
      exact ⟨_, rfl, by rw [applied_visitStatus hv, heq, hc]⟩

/-- C2 witness: on the completed sample schedule, requesting `upcoming` is a
`ValidationError` leaving the store unchanged. -/
theorem updateSchedule_terminal_immutable_witness :
    ∃ msg,
      (ScheduleUseCase.UpdateSchedule storeCompleted 2 [("visit_status", .vString "upcoming")]).1
        = .error ⟨msg, .validationError⟩
      ∧ (ScheduleUseCase.UpdateSchedule storeCompleted 2 [("visit_status", .vString "upcoming")]).2
        = storeCompleted :=
  (updateSchedule_terminal_immutable storeCompleted 2
      [("visit_status", .vString "upcoming")] schedCompleted "upcoming"
      rfl (Or.inl rfl) rfl rfl rfl).1 (by decide)

/-- C1 counterexample: on the sample `upcoming` schedule, `UpdateSchedule`
with `visit_status = "completed"` — a transition the claim says is rejected
with `ValidationError` — succeeds, and the stored status becomes
`completed`. -/
theorem updateSchedule_accepts_upcoming_to_completed :
    (ScheduleUseCase.UpdateSchedule baseStore 1 [("visit_status", GoValue.vString "completed")]).1
      = .ok { schedUpcoming with VisitStatus := "completed" } := by
  rfl

/-- C1 amended: `UpdateSchedule`'s status handling (schedule found, both
user guards passing, a string `visit_status` entry present) is exactly:
an invalid label is rejected with `ValidationError`; leaving `completed` or
`cancelled` for a different value is rejected with `ValidationError`; every
other requested value — including `completed` on an `upcoming` schedule and
`upcoming` on an `in_progress` schedule — is accepted and stored.  (The
`upcoming → in_progress` and `in_progress → completed` transitions of
`StartSchedule`/`EndSchedule` are covered by the other claim theorems.) -/
theorem updateSchedule_status_transition_rules
    (st : Store) (id : Uuid) (m : FieldMap) (sched : Schedule) (v : String)
    (hfind : Repository.GetScheduleByID st id = .ok sched)
    (hv : fmLookup m "visit_status" = some (.vString v))
    (hclient : ScheduleUseCase.updateScheduleUserCheck st "client_user_id" "new client user not found" m = .ok ())
    (hassigned : ScheduleUseCase.updateScheduleUserCheck st "assigned_user_id" "new assigned user not found" m = .ok ()) :
    (ScheduleUseCase.validStatuses v = false →
       (ScheduleUseCase.UpdateSchedule st id m).1 = .error ⟨"invalid visit status", .validationError⟩
       ∧ (ScheduleUseCase.UpdateSchedule st id m).2 = st)
    ∧ (sched.VisitStatus = "completed" → v ≠ "completed" → ScheduleUseCase.validStatuses v = true →
       (ScheduleUseCase.UpdateSchedule st id m).1 = .error ⟨"cannot change status from completed", .validationError⟩
       ∧ (ScheduleUseCase.UpdateSchedule st id m).2 = st)
    ∧ (sched.VisitStatus = "cancelled" → v ≠ "cancelled" → ScheduleUseCase.validStatuses v = true →
       (ScheduleUseCase.UpdateSchedule st id m).1 = .error ⟨"cannot change status from cancelled", .validationError⟩
       ∧ (ScheduleUseCase.UpdateSchedule st id m).2 = st)
    ∧ (ScheduleUseCase.validStatuses v = true →
       (sched.VisitStatus = "completed" → v = "completed") →
       (sched.VisitStatus = "cancelled" → v = "cancelled") →
       ∃ s2, (ScheduleUseCase.UpdateSchedule st id m).1 = .ok s2 ∧ s2.VisitStatus = v) := by
  rw [engineUpdateSchedule_reduce hfind hclient hassigned, statusCheck_some hv]
  refine ⟨?_, ?_, ?_, ?_⟩
  · intro hval
    rw [if_pos (show (!ScheduleUseCase.validStatuses v) = true from by rw [hval]; rfl)]
    exact ⟨rfl, rfl⟩
  · intro hc hne hval
    rw [if_neg (show ¬((!ScheduleUseCase.validStatuses v) = true) from by rw [hval]; decide),
      hc, if_pos (show (("completed" == "completed") && (v != "completed")) = true from by
        rw [bne_iff_ne.mpr hne]; rfl)]
    exact ⟨rfl, rfl⟩
  · intro hc hne hval
    rw [if_neg (show ¬((!ScheduleUseCase.validStatuses v) = true) from by rw [hval]; decide),
      hc, if_neg (show ¬((("cancelled" == "completed") && (v != "completed")) = true) from by simp),
      if_pos (show (("cancelled" == "cancelled") && (v != "cancelled")) = true from by
        rw [bne_iff_ne.mpr hne]; rfl)]
    exact ⟨rfl, rfl⟩
  · intro hval h1 h2
    have hA : ((sched.VisitStatus == "completed") && (v != "completed")) = false := by
      by_cases hc : sched.VisitStatus = "completed"
      · rw [hc, h1 hc]; decide
      · rw [beq_eq_false_iff_ne.mpr hc, Bool.false_and]
    have hB : ((sched.VisitStatus == "cancelled") && (v != "cancelled")) = false := by
      by_cases hc : sched.VisitStatus = "cancelled"
      · rw [hc, h2 hc]; decide
      · rw [beq_eq_false_iff_ne.mpr hc, Bool.false_and]
    rw [if_neg (show ¬((!ScheduleUseCase.validStatuses v) = true) from by rw [hval]; decide),
      if_neg (show ¬(((sched.VisitStatus == "completed") && (v != "completed")) = true) from by
        simp [hA]),
      if_neg (show ¬(((sched.VisitStatus == "cancelled") && (v != "cancelled")) = true) from by
        simp [hB]),
      repoUpdateSchedule_found m (find?_of_getScheduleOk hfind)]
    exact ⟨_, rfl, applied_visitStatus hv⟩

/-- C1 amended witness: the permissive branch applied to the sample store,
accepting `completed` on an `upcoming` schedule. -/
theorem updateSchedule_status_transition_rules_witness :
    ∃ s2, (ScheduleUseCase.UpdateSchedule baseStore 1 [("visit_status", GoValue.vString "completed")]).1
        = .ok s2 ∧ s2.VisitStatus = "completed" :=
  (updateSchedule_status_transition_rules baseStore 1
      [("visit_status", GoValue.vString "completed")] schedUpcoming "completed"
      rfl rfl rfl rfl).2.2.2 rfl
    (fun h => absurd h (by decide)) (fun h => absurd h (by decide))

/-- C3: for an existing `upcoming` schedule started at or after its slot
start, `StartSchedule` fails with the occupancy `ValidationError` and writes
nothing when the store reports an in-progress schedule for the assignee, and
otherwise succeeds, setting `in_progress`, the check-in time, and the
check-in location. -/
theorem startSchedule_single_occupancy
    (st : Store) (id : Uuid) (ts : GoTime) (loc : Location) (sched : Schedule)
    (hfind : Repository.GetScheduleByID st id = .ok sched)
    (hstatus : sched.VisitStatus = "upcoming")
    (hts : ¬ ts < sched.ScheduledSlot.«from») :
    (Repository.GetSchedulesInProgressByAssignedUserID st sched.AssignedUserID ≠ [] →
       (ScheduleUseCase.StartSchedule st id ts loc).1
         = .error ⟨"cannot start schedule: another schedule is already in progress for this user", .validationError⟩
       ∧ (ScheduleUseCase.StartSchedule st id ts loc).2 = st)
    ∧ (Repository.GetSchedulesInProgressByAssignedUserID st sched.AssignedUserID = [] →
       ∃ s2, (ScheduleUseCase.StartSchedule st id ts loc).1 = .ok s2
         ∧ s2.VisitStatus = "in_progress"
         ∧ s2.CheckinTime = some ts
         ∧ s2.CheckinLocation = loc) := by
  rw [startSchedule_reduce ts loc hfind, hstatus,
    if_neg (show ¬(("upcoming" != "upcoming") = true) from by decide), if_neg hts]
  constructor
  · intro hne
    rw [if_pos (List.length_pos.mpr hne)]
    exact ⟨rfl, rfl⟩
  · intro hemp
    rw [if_neg (show ¬(Repository.GetSchedulesInProgressByAssignedUserID st sched.AssignedUserID).length > 0 from by
        rw [hemp]; decide),
      repoUpdateSchedule_found _ (find?_of_getScheduleOk hfind)]
    exact ⟨_, rfl, rfl, rfl, rfl⟩

/-- C3 witness: on the sample store (no in-progress schedule for user 2),
starting at time 150 succeeds with the check-in fields set. -/
theorem startSchedule_single_occupancy_witness :
    ∃ s2, (ScheduleUseCase.StartSchedule baseStore 1 150 locSample).1 = .ok s2
      ∧ s2.VisitStatus = "in_progress"
      ∧ s2.CheckinTime = some 150
      ∧ s2.CheckinLocation = locSample :=
  (startSchedule_single_occupancy baseStore 1 150 locSample schedUpcoming
    rfl rfl (by decide)).2 rfl

/-- Any failing `CreateSchedule` leaves the store untouched. -/
theorem createSchedule_error_state (st : Store) (ns : Schedule) (e : AppError)
    (h : (ScheduleUseCase.CreateSchedule st ns).1 = .error e) :
    (ScheduleUseCase.CreateSchedule st ns).2 = st := by
  unfold ScheduleUseCase.CreateSchedule at h ⊢
  rcases hc : UserRepository.GetByID st ns.ClientUserID with _ | u1
  · rfl
  · rcases ha : UserRepository.GetByID st ns.AssignedUserID with _ | u2
    · rfl
    · exfalso
      rw [hc, ha] at h
      simp [Repository.Create] at h

/-- Any failing `StartSchedule` leaves the store untouched. -/
theorem startSchedule_error_state (st : Store) (id : Uuid) (ts : GoTime)
    (loc : Location) (e : AppError)
    (h : (ScheduleUseCase.StartSchedule st id ts loc).1 = .error e) :
    (ScheduleUseCase.StartSchedule st id ts loc).2 = st := by
  rcases hG : Repository.GetScheduleByID st id with e0 | sched
  · unfold ScheduleUseCase.StartSchedule
    rw [hG]
  · rw [startSchedule_reduce ts loc hG] at h ⊢
    revert h
    split
    · intro _; rfl
    · split
      · intro _; rfl
      · split
        · intro _; rfl
        · unfold Repository.UpdateSchedule
          rcases hf : st.schedules.find? (fun s => s.ID == id) with _ | sch
          · intro _
            rw [hf]
          · intro h
            rw [hf] at h
            exact absurd h (by simp)

/-- Any failing `EndSchedule` leaves the store untouched. -/
theorem endSchedule_error_state (st : Store) (id : Uuid) (ts : GoTime)
    (loc : Location) (tasks : List Task) (e : AppError)
    (h : (ScheduleUseCase.EndSchedule st id ts loc tasks).1 = .error e) :
    (ScheduleUseCase.EndSchedule st id ts loc tasks).2 = st := by
  rcases hG : Repository.GetScheduleByID st id with e0 | sched
  · unfold ScheduleUseCase.EndSchedule
    rw [hG]
  · rw [endSchedule_reduce ts loc tasks hG] at h ⊢
    revert h
    split
    · intro _; rfl
    · rcases hu : (Repository.UpdateSchedule st id (ScheduleUseCase.endUpdates ts loc)).1 with e1 | upd
      · intro _
        exact repoUpdateSchedule_error_state hu
      · intro h
        exact absurd h (by simp)

/-- C5: engine mutations are fail-fast and atomic — whenever
`CreateSchedule`, `StartSchedule` or `EndSchedule` returns an error (missing
user or schedule, wrong status, early timestamp, occupancy conflict), the
store is exactly as before: no schedule is created or modified, and in
particular no check-in or check-out field is written. -/
theorem engine_mutations_fail_fast (st : Store) :
    (∀ ns e, (ScheduleUseCase.CreateSchedule st ns).1 = .error e →
       (ScheduleUseCase.CreateSchedule st ns).2 = st)
    ∧ (∀ id ts loc e, (ScheduleUseCase.StartSchedule st id ts loc).1 = .error e →
       (ScheduleUseCase.StartSchedule st id ts loc).2 = st)
    ∧ (∀ id ts loc tasks e, (ScheduleUseCase.EndSchedule st id ts loc tasks).1 = .error e →
       (ScheduleUseCase.EndSchedule st id ts loc tasks).2 = st) :=
  ⟨fun ns e h => createSchedule_error_state st ns e h,
   fun id ts loc e h => startSchedule_error_state st id ts loc e h,
   fun id ts loc tasks e h => endSchedule_error_state st id ts loc tasks e h⟩

/-- C5 witness: starting the completed sample schedule fails (wrong status)
and leaves the store exactly as it was. -/
theorem engine_mutations_fail_fast_witness :
    (ScheduleUseCase.StartSchedule storeCompleted 2 150 locSample).2 = storeCompleted :=
  (engine_mutations_fail_fast storeCompleted).2.1 2 150 locSample
    ⟨"schedule is not in 'upcoming' status", .validationError⟩ rfl

/-- Every error produced by the visit-status gate is a `ValidationError`. -/
theorem statusCheck_error_validation {sched : Schedule} {m : FieldMap} {e : AppError}
    (h : ScheduleUseCase.updateScheduleStatusCheck sched m = .error e) :
    e.errType = .validationError := by
  unfold ScheduleUseCase.updateScheduleStatusCheck at h
  split at h
  · exact absurd h (by simp)
  · split at h
    · simp only [Except.error.injEq] at h
      rw [← h]
    · split at h
      · simp only [Except.error.injEq] at h
        rw [← h]
      · split at h
        · simp only [Except.error.injEq] at h
          rw [← h]
        · exact absurd h (by simp)

/-- C10 (implicit): when the `client_user_id` / `assigned_user_id` entries of
an `UpdateSchedule` field map are not dynamically typed as `uuid.UUID` (for
example a string-encoded UUID), the user-existence checks are skipped
entirely: the call is exactly the status gate followed by the raw store
update with the unchanged map, and any error it returns is a
`ValidationError` — never a user `NotFound`. -/
theorem updateSchedule_nonUuid_user_entries_skip_check
    (st : Store) (id : Uuid) (m : FieldMap) (sched : Schedule)
    (hfind : Repository.GetScheduleByID st id = .ok sched)
    (hc : (fmLookup m "client_user_id").bind GoValue.asUuid = none)
    (ha : (fmLookup m "assigned_user_id").bind GoValue.asUuid = none) :
    (ScheduleUseCase.UpdateSchedule st id m =
      match ScheduleUseCase.updateScheduleStatusCheck sched m with
      | .error e => (.error e, st)
      | .ok _ => Repository.UpdateSchedule st id m)
    ∧ ∀ e, (ScheduleUseCase.UpdateSchedule st id m).1 = .error e →
        e.errType = .validationError := by
  have hred := engineUpdateSchedule_reduce hfind (userCheck_nonUuid hc) (userCheck_nonUuid ha)
  refine ⟨hred, ?_⟩
  intro e he
  rw [hred] at he
  rcases hs : ScheduleUseCase.updateScheduleStatusCheck sched m with e1 | u
  · rw [hs] at he
    simp only [Except.error.injEq] at he
    rw [← he]
    exact statusCheck_error_validation hs
  · rw [hs] at he
    rw [repoUpdateSchedule_found m (find?_of_getScheduleOk hfind)] at he
    exact absurd he (by simp)

/-- C10 witness: on a store with an empty user directory, an update carrying
a string-typed `client_user_id` is forwarded to the store unchanged and
succeeds — no user `NotFound` occurs. -/
theorem updateSchedule_nonUuid_user_entries_skip_check_witness :
    (ScheduleUseCase.UpdateSchedule storeNoUsers 1
        [("client_user_id", GoValue.vString "3b241101-e2bb-4255-8caf-4136c566a962")]
      = Repository.UpdateSchedule storeNoUsers 1
        [("client_user_id", GoValue.vString "3b241101-e2bb-4255-8caf-4136c566a962")])
    ∧ (ScheduleUseCase.UpdateSchedule storeNoUsers 1
        [("client_user_id", GoValue.vString "3b241101-e2bb-4255-8caf-4136c566a962")]).1
      = .ok schedUpcoming :=
  ⟨(updateSchedule_nonUuid_user_entries_skip_check storeNoUsers 1
      [("client_user_id", GoValue.vString "3b241101-e2bb-4255-8caf-4136c566a962")]
      schedUpcoming rfl rfl rfl).1, rfl⟩

/-- Applying a task field map never changes the task's identity. -/
theorem applyTaskUpdates_ID (t : Task) (m : FieldMap) :
    (Repository.applyTaskUpdates t m).ID = t.ID := rfl

/-- Overwriting a string column twice with the same map is the same as
overwriting it once. -/
theorem fm2String_idem (m : FieldMap) (k1 k2 a : String) :
    fm2String m k1 k2 (fm2String m k1 k2 a) = fm2String m k1 k2 a := by
  rcases h : fmLookup2 m k1 k2 with _ | v
  · simp [fm2String, h]
  · cases v <;> simp [fm2String, h]

/-- Overwriting a nullable bool column twice is the same as once. -/
theorem fm2BoolPtr_idem (m : FieldMap) (k1 k2 : String) (a : Option Bool) :
    fm2BoolPtr m k1 k2 (fm2BoolPtr m k1 k2 a) = fm2BoolPtr m k1 k2 a := by
  rcases h : fmLookup2 m k1 k2 with _ | v
  · simp [fm2BoolPtr, h]
  · cases v <;> simp [fm2BoolPtr, h]

/-- Overwriting a nullable string column twice is the same as once. -/
theorem fm2StringPtr_idem (m : FieldMap) (k1 k2 : String) (a : Option String) :
    fm2StringPtr m k1 k2 (fm2StringPtr m k1 k2 a) = fm2StringPtr m k1 k2 a := by
  rcases h : fmLookup2 m k1 k2 with _ | v
  · simp [fm2StringPtr, h]
  · cases v <;> simp [fm2StringPtr, h]

/-- Applying the same task field map twice is the same as applying it once. -/
theorem applyTaskUpdates_idem (t : Task) (m : FieldMap) :
    Repository.applyTaskUpdates (Repository.applyTaskUpdates t m) m
      = Repository.applyTaskUpdates t m := by
  cases t
  simp [Repository.applyTaskUpdates, fm2String_idem, fm2BoolPtr_idem, fm2StringPtr_idem]

/-- `find?` by identity commutes with a map that preserves identities. -/
theorem find?_map_id_preserve {l : List Task} {tid : Uuid} (g : Task → Task)
    (hg : ∀ t, (g t).ID = t.ID) :
    (l.map g).find? (fun t => t.ID == tid) = (l.find? (fun t => t.ID == tid)).map g := by
  induction l with
  | nil => rfl
  | cons a l ih =>
    by_cases h : (a.ID == tid) = true
    · rw [List.map_cons,
        @List.find?_cons_of_pos _ (fun t => t.ID == tid) (g a) (l.map g)
          (by simp only [hg]; exact h),
        @List.find?_cons_of_pos _ (fun t => t.ID == tid) a l h]
      rfl
    · rw [List.map_cons,
        @List.find?_cons_of_neg _ (fun t => t.ID == tid) (g a) (l.map g)
          (by simp only [hg]; exact h),
        @List.find?_cons_of_neg _ (fun t => t.ID == tid) a l h]
      exact ih

/-- A per-schedule task rewrite flattens to a task-list map. -/
theorem foldrTasks_map (g : Task → Task) (l : List Schedule) :
    ((l.map (fun s => { s with Tasks := s.Tasks.map g })).foldr (fun s acc => s.Tasks ++ acc) [])
      = (l.foldr (fun s acc => s.Tasks ++ acc) []).map g := by
  induction l with
  | nil => rfl
  | cons s rest ih => simp [ih]

/-- `updateTaskIn` acts on the flattened task table as a pointwise map. -/
theorem allTasks_updateTaskIn (st : Store) (tid : Uuid) (m : FieldMap) :
    (Repository.updateTaskIn st tid m).allTasks
      = st.allTasks.map
          (fun t => if t.ID == tid then Repository.applyTaskUpdates t m else t) := by
  unfold Repository.updateTaskIn Store.allTasks
  exact foldrTasks_map _ st.schedules

/-- Task lookup after `updateTaskIn`, as a mapped lookup. -/
theorem findTask_updateTaskIn (st : Store) (tid : Uuid) (m : FieldMap) (id2 : Uuid) :
    (Repository.updateTaskIn st tid m).allTasks.find? (fun t => t.ID == id2)
      = (st.allTasks.find? (fun t => t.ID == id2)).map
          (fun t => if t.ID == tid then Repository.applyTaskUpdates t m else t) := by
  rw [allTasks_updateTaskIn]
  refine find?_map_id_preserve _ (fun t => ?_)
  by_cases h : (t.ID == tid) = true <;> simp [h, applyTaskUpdates_ID]

/-- `Repository.UpdateTask` on a missing task id is an error with no write. -/
theorem repoUpdateTask_miss {st : Store} {tid : Uuid} (m : FieldMap)
    (hf : st.allTasks.find? (fun t => t.ID == tid) = none) :
    Repository.UpdateTask st tid m = (.error ⟨"record not found", .notFound⟩, st) := by
  unfold Repository.UpdateTask
  rw [hf]

/-- `Repository.UpdateTask` on a present task id applies the field map. -/
theorem repoUpdateTask_hit {st : Store} {tid : Uuid} {t : Task} (m : FieldMap)
    (hf : st.allTasks.find? (fun x => x.ID == tid) = some t) :
    Repository.UpdateTask st tid m
      = (.ok (Repository.applyTaskUpdates t m), Repository.updateTaskIn st tid m) := by
  unfold Repository.UpdateTask
  rw [hf]

/-- Mapping an idempotent function twice is the same as mapping it once. -/
theorem map_idem_of_idem {α : Type} (g : α → α) (hg : ∀ a, g (g a) = g a) (l : List α) :
    (l.map g).map g = l.map g := by
  induction l with
  | nil => rfl
  | cons a rest ih => simp [hg, ih]

/-- Rewriting the matching tasks twice with the same map is the same as
rewriting them once. -/
theorem updateTaskIn_idem (st : Store) (tid : Uuid) (m : FieldMap) :
    Repository.updateTaskIn (Repository.updateTaskIn st tid m) tid m
      = Repository.updateTaskIn st tid m := by
  have hg : ∀ t : Task,
      (fun t : Task => if t.ID == tid then Repository.applyTaskUpdates t m else t)
        ((fun t : Task => if t.ID == tid then Repository.applyTaskUpdates t m else t) t)
      = (fun t : Task => if t.ID == tid then Repository.applyTaskUpdates t m else t) t := by
    intro t
    by_cases h : (t.ID == tid) = true
    · simp [h, applyTaskUpdates_ID, applyTaskUpdates_idem]
    · simp [h]
  have hF : ∀ s : Schedule,
      (fun s : Schedule => { s with
          Tasks := s.Tasks.map
            (fun t : Task => if t.ID == tid then Repository.applyTaskUpdates t m else t) })
        ((fun s : Schedule => { s with
          Tasks := s.Tasks.map
            (fun t : Task => if t.ID == tid then Repository.applyTaskUpdates t m else t) }) s)
      = (fun s : Schedule => { s with
          Tasks := s.Tasks.map
            (fun t : Task => if t.ID == tid then Repository.applyTaskUpdates t m else t) }) s := by
    intro s
    dsimp only
    congr 1
    exact map_idem_of_idem
      (fun t : Task => if t.ID == tid then Repository.applyTaskUpdates t m else t) hg s.Tasks
  unfold Repository.updateTaskIn
  congr 1
  exact map_idem_of_idem
    (fun s : Schedule => { s with
        Tasks := s.Tasks.map
          (fun t : Task => if t.ID == tid then Repository.applyTaskUpdates t m else t) })
    hF st.schedules

/-- C9: `UpdateTaskStatus` is idempotent — a second call with identical
arguments returns the same result and leaves the store exactly as after the
first call (for a missing task id, both calls fail identically with no
write). -/
theorem updateTaskStatus_idempotent
    (st : Store) (taskID : Uuid) (status : String) (done : Bool) (feedback : String) :
    ScheduleUseCase.UpdateTaskStatus
        (ScheduleUseCase.UpdateTaskStatus st taskID status done feedback).2
        taskID status done feedback
      = ScheduleUseCase.UpdateTaskStatus st taskID status done feedback := by
  unfold ScheduleUseCase.UpdateTaskStatus
  rcases hf : st.allTasks.find? (fun t => t.ID == taskID) with _ | t
  · rw [repoUpdateTask_miss _ hf]
    exact repoUpdateTask_miss _ hf
  · rw [repoUpdateTask_hit _ hf]
    have hp : (t.ID == taskID) = true :=
      @List.find?_some _ (fun x => x.ID == taskID) t _ hf
    have hf2 : (Repository.updateTaskIn st taskID
          [("Status", GoValue.vString status), ("Done", GoValue.vBool done),
           ("Feedback", GoValue.vString feedback)]).allTasks.find? (fun x => x.ID == taskID)
        = some (Repository.applyTaskUpdates t
            [("Status", GoValue.vString status), ("Done", GoValue.vBool done),
             ("Feedback", GoValue.vString feedback)]) := by
      rw [findTask_updateTaskIn, hf]
      exact congrArg some (if_pos hp)
    calc
      Repository.UpdateTask (Repository.updateTaskIn st taskID
          [("Status", GoValue.vString status), ("Done", GoValue.vBool done),
           ("Feedback", GoValue.vString feedback)]) taskID
          [("Status", GoValue.vString status), ("Done", GoValue.vBool done),
           ("Feedback", GoValue.vString feedback)]
        = _ := repoUpdateTask_hit _ hf2
      _ = _ := by rw [applyTaskUpdates_idem, updateTaskIn_idem]

/-- The input task used by the C8 counterexample: it already carries both an
identifier and a status. -/
def taskWithStatusDone : Task :=
  { ID := 5, ScheduleID := 0, Title := "Give medication", Description := "",
    Status := "done", Done := none, Feedback := none }

/-- A creation input whose single task already carries status `"done"`. -/
def newSchedWithDoneTask : Schedule :=
  { schedUpcoming with ID := 0, Tasks := [taskWithStatusDone] }

/-- C8 counterexample: `CreateSchedule` on a task that already carries a
status does not keep it — the stored task's status is `"pending"`, not the
supplied `"done"` (the source sets `Status = "pending"` unconditionally). -/
theorem createSchedule_overwrites_existing_task_status :
    (∃ s2, (ScheduleUseCase.CreateSchedule baseStore newSchedWithDoneTask).1 = .ok s2
       ∧ s2.Tasks.map (fun t => t.Status) = ["pending"])
    ∧ newSchedWithDoneTask.Tasks.map (fun t => t.Status) = ["done"] :=
  ⟨⟨_, rfl, rfl⟩, rfl⟩

/-- Task-default assignment, pointwise: every output task has status
`"pending"`; a task with a nonzero id keeps it, a task with the nil id
receives a nonzero one. -/
theorem assignTaskDefaults_spec (l : List Task) (n : Nat) :
    List.Forall₂
      (fun t0 t1 => t1.Status = "pending"
        ∧ (t0.ID ≠ 0 → t1.ID = t0.ID)
        ∧ (t0.ID = 0 → t1.ID ≠ 0))
      l (ScheduleUseCase.assignTaskDefaults n l).1 := by
  induction l generalizing n with
  | nil => exact List.Forall₂.nil
  | cons t rest ih =>
    refine List.Forall₂.cons ?_ (ih _)
    by_cases h : (t.ID == 0) = true
    · rw [if_pos h]
      exact ⟨rfl, fun hne => absurd (by simpa using h) hne,
        fun _ => Nat.succ_ne_zero n⟩
    · rw [if_neg h]
      exact ⟨rfl, fun _ => rfl, fun h0 => absurd (by simpa using h0) h⟩

/-- C8 amended: when both referenced users exist, `CreateSchedule` succeeds
and the created schedule has `visitStatus = "upcoming"`; every task's status
is set to `"pending"` unconditionally (a supplied status is overwritten, not
kept); a task lacking an identifier is assigned a fresh nonzero one, and a
task that already carries an identifier keeps it. -/
theorem createSchedule_forces_defaults
    (st : Store) (ns : Schedule)
    (hclient : ∃ u, UserRepository.GetByID st ns.ClientUserID = .ok u)
    (hassigned : ∃ u, UserRepository.GetByID st ns.AssignedUserID = .ok u) :
    ∃ s2, (ScheduleUseCase.CreateSchedule st ns).1 = .ok s2
      ∧ s2.VisitStatus = "upcoming"
      ∧ List.Forall₂
          (fun t0 t1 => t1.Status = "pending"
            ∧ (t0.ID ≠ 0 → t1.ID = t0.ID)
            ∧ (t0.ID = 0 → t1.ID ≠ 0))
          ns.Tasks s2.Tasks := by
  obtain ⟨u1, hc⟩ := hclient
  obtain ⟨u2, ha⟩ := hassigned
  unfold ScheduleUseCase.CreateSchedule
  rw [hc, ha]
  refine ⟨_, rfl, rfl, ?_⟩
  show List.Forall₂ _ ns.Tasks
    (((ScheduleUseCase.assignTaskDefaults st.nextId ns.Tasks).1).map _)
  rw [List.forall₂_map_right_iff]
  exact assignTaskDefaults_spec ns.Tasks st.nextId

/-- C8 amended witness: on the concrete input whose task has id 5 and status
`"done"`, creation succeeds with `upcoming` status and the pointwise task
property. -/
theorem createSchedule_forces_defaults_witness :
    ∃ s2, (ScheduleUseCase.CreateSchedule baseStore newSchedWithDoneTask).1 = .ok s2
      ∧ s2.VisitStatus = "upcoming"
      ∧ List.Forall₂
          (fun t0 t1 => t1.Status = "pending"
            ∧ (t0.ID ≠ 0 → t1.ID = t0.ID)
            ∧ (t0.ID = 0 → t1.ID ≠ 0))
          newSchedWithDoneTask.Tasks s2.Tasks :=
  createSchedule_forces_defaults baseStore newSchedWithDoneTask
    ⟨⟨1⟩, rfl⟩ ⟨⟨2⟩, rfl⟩

/-- A per-schedule rewrite that keeps each schedule's task list keeps the
flattened task table. -/
theorem foldrTasks_congr (f : Schedule → Schedule) (hf : ∀ s, (f s).Tasks = s.Tasks)
    (l : List Schedule) :
    ((l.map f).foldr (fun s acc => s.Tasks ++ acc) [])
      = l.foldr (fun s acc => s.Tasks ++ acc) [] := by
  induction l with
  | nil => rfl
  | cons s rest ih => simp [hf, ih]

/-- Writing schedule columns (a partial schedule update) never changes the
task table. -/
theorem allTasks_mapApply (st : Store) (id : Uuid) (m : FieldMap) :
    ({ st with
        schedules := st.schedules.map
          (fun s => if s.ID == id then Repository.applyScheduleUpdates s m else s) } : Store).allTasks
      = st.allTasks := by
  unfold Store.allTasks
  refine foldrTasks_congr _ (fun s => ?_) st.schedules
  by_cases h : (s.ID == id) = true
  · rw [if_pos h]
    rfl
  · rw [if_neg h]

/-- A `Repository.UpdateTask` step for one id does not touch the lookup of a
different id. -/
theorem repoUpdateTask_find_other (st : Store) (tid : Uuid) (m : FieldMap) (id2 : Uuid)
    (hne : id2 ≠ tid) :
    ((Repository.UpdateTask st tid m).2).allTasks.find? (fun x => x.ID == id2)
      = st.allTasks.find? (fun x => x.ID == id2) := by
  unfold Repository.UpdateTask
  rcases hf : st.allTasks.find? (fun t => t.ID == tid) with _ | t
  · rw [hf]
  · rw [hf]
    show (Repository.updateTaskIn st tid m).allTasks.find? (fun x => x.ID == id2) = _
    rw [findTask_updateTaskIn]
    rcases hf2 : st.allTasks.find? (fun x => x.ID == id2) with _ | u
    · rw [hf2]
      rfl
    · rw [hf2]
      have hu : u.ID = id2 := by
        simpa using @List.find?_some _ (fun x => x.ID == id2) u _ hf2
      have hne2 : u.ID ≠ tid := by
        rw [hu]
        exact hne
      simp [hne2]

/-- The best-effort task loop leaves the lookup of an id that none of its
entries carries untouched. -/
theorem applyTaskLoop_preserves (l : List Task) (st : Store) (id2 : Uuid)
    (h : ∀ a ∈ l, id2 ≠ a.ID) :
    (ScheduleUseCase.applyTaskLoop st l).allTasks.find? (fun x => x.ID == id2)
      = st.allTasks.find? (fun x => x.ID == id2) := by
  induction l generalizing st with
  | nil => rfl
  | cons a rest ih =>
    show (ScheduleUseCase.applyTaskLoop
        (Repository.UpdateTask st a.ID (ScheduleUseCase.endTaskUpdates a)).2 rest).allTasks.find?
        (fun x => x.ID == id2) = _
    rw [ih _ (fun b hb => h b (List.mem_cons_of_mem a hb))]
    exact repoUpdateTask_find_other st a.ID _ id2 (h a (List.mem_cons_self a rest))

/-- A `Repository.UpdateTask` step rewrites the lookup of its own id when
the task exists. -/
theorem repoUpdateTask_find_self (st : Store) (tid : Uuid) (m : FieldMap) (u : Task)
    (hu : st.allTasks.find? (fun x => x.ID == tid) = some u) :
    ((Repository.UpdateTask st tid m).2).allTasks.find? (fun x => x.ID == tid)
      = some (Repository.applyTaskUpdates u m) := by
  unfold Repository.UpdateTask
  rw [hu]
  show (Repository.updateTaskIn st tid m).allTasks.find? (fun x => x.ID == tid) = _
  rw [findTask_updateTaskIn, hu]
  exact congrArg some (if_pos (@List.find?_some _ (fun x => x.ID == tid) u _ hu))

/-- The best-effort task loop applies each entry's update to the matching
stored task (entries with pairwise distinct ids); entries whose id does not
exist fail individually without aborting the rest. -/
theorem applyTaskLoop_applies (l : List Task) (st : Store)
    (hnd : (l.map (fun t => t.ID)).Nodup) :
    ∀ t ∈ l, ∀ u, st.allTasks.find? (fun x => x.ID == t.ID) = some u →
      (ScheduleUseCase.applyTaskLoop st l).allTasks.find? (fun x => x.ID == t.ID)
        = some (Repository.applyTaskUpdates u (ScheduleUseCase.endTaskUpdates t)) := by
  induction l generalizing st with
  | nil => intro t ht; cases ht
  | cons a rest ih =>
    rw [List.map_cons, List.nodup_cons] at hnd
    intro t ht u hu
    rcases List.mem_cons.mp ht with rfl | ht
    · show (ScheduleUseCase.applyTaskLoop
          (Repository.UpdateTask st t.ID (ScheduleUseCase.endTaskUpdates t)).2 rest).allTasks.find?
          (fun x => x.ID == t.ID) = _
      rw [applyTaskLoop_preserves rest _ t.ID
          (fun b hb heq => hnd.1 (heq ▸ List.mem_map_of_mem (fun x => x.ID) hb))]
      exact repoUpdateTask_find_self st t.ID _ u hu
    · show (ScheduleUseCase.applyTaskLoop
          (Repository.UpdateTask st a.ID (ScheduleUseCase.endTaskUpdates a)).2 rest).allTasks.find?
          (fun x => x.ID == t.ID) = _
      have hne : t.ID ≠ a.ID := by
        intro heq
        exact hnd.1 (heq ▸ List.mem_map_of_mem (fun x => x.ID) ht)
      refine ih _ hnd.2 t ht u ?_
      rw [repoUpdateTask_find_other st a.ID _ t.ID hne]
      exact hu

/-- C6: ending an in-progress schedule always returns the completed schedule
without error, even when some entries of `taskUpdates` refer to nonexistent
tasks; the completion is not rolled back and every entry whose task exists
still has its `status`/`done`/`feedback` update applied. -/
theorem endSchedule_best_effort
    (st : Store) (id : Uuid) (ts : GoTime) (loc : Location) (taskUpdates : List Task)
    (sched : Schedule)
    (hfind : Repository.GetScheduleByID st id = .ok sched)
    (hstatus : sched.VisitStatus = "in_progress")
    (hnd : (taskUpdates.map (fun t => t.ID)).Nodup) :
    ∃ s2, (ScheduleUseCase.EndSchedule st id ts loc taskUpdates).1 = .ok s2
      ∧ s2.VisitStatus = "completed"
      ∧ s2.CheckoutTime = some ts
      ∧ (∀ t ∈ taskUpdates, ∀ u, st.allTasks.find? (fun x => x.ID == t.ID) = some u →
          ((ScheduleUseCase.EndSchedule st id ts loc taskUpdates).2).allTasks.find?
              (fun x => x.ID == t.ID)
            = some (Repository.applyTaskUpdates u (ScheduleUseCase.endTaskUpdates t))) := by
  rw [endSchedule_reduce ts loc taskUpdates hfind, hstatus,
    if_neg (show ¬(("in_progress" != "in_progress") = true) from by decide),
    repoUpdateSchedule_found (ScheduleUseCase.endUpdates ts loc) (find?_of_getScheduleOk hfind)]
  refine ⟨_, rfl, rfl, rfl, ?_⟩
  intro t ht u hu
  show (ScheduleUseCase.applyTaskLoop _ taskUpdates).allTasks.find? (fun x => x.ID == t.ID) = _
  refine applyTaskLoop_applies taskUpdates _ hnd t ht u ?_
  rw [allTasks_mapApply]
  exact hu

/-- A task-update list for the C6 witness: one entry for a task id (999)
that does not exist in the store, one for the existing task 7. -/
def endTasksSample : List Task :=
  [{ ID := 999, ScheduleID := 3, Title := "", Description := "",
     Status := "x", Done := some true, Feedback := none },
   { ID := 7, ScheduleID := 3, Title := "", Description := "",
     Status := "completedTask", Done := some true, Feedback := some "fb" }]

/-- C6 witness: ending the in-progress sample schedule with one update for a
missing task (id 999) and one for the existing task 7 succeeds, completes
the schedule, and applies the existing task's update. -/
theorem endSchedule_best_effort_witness :
    ∃ s2, (ScheduleUseCase.EndSchedule storeInProgress 3 180 locSample endTasksSample).1 = .ok s2
      ∧ s2.VisitStatus = "completed"
      ∧ s2.CheckoutTime = some 180
      ∧ (∀ t ∈ endTasksSample,
          ∀ u, storeInProgress.allTasks.find? (fun x => x.ID == t.ID) = some u →
          ((ScheduleUseCase.EndSchedule storeInProgress 3 180 locSample
              endTasksSample).2).allTasks.find? (fun x => x.ID == t.ID)
            = some (Repository.applyTaskUpdates u (ScheduleUseCase.endTaskUpdates t))) :=
  endSchedule_best_effort storeInProgress 3 180 locSample endTasksSample
    schedInProgress rfl rfl (by decide)

/-- The slot invariant of one schedule: `scheduledSlot.from <= scheduledSlot.to`. -/
def slotOK (s : Schedule) : Prop := s.ScheduledSlot.«from» ≤ s.ScheduledSlot.«to»

/-- The slot invariant over every stored schedule. -/
def storeSlotOK (st : Store) : Prop := ∀ s ∈ st.schedules, slotOK s

/-- Field map lookup distributes over concatenation, first map first. -/
theorem fmLookup_append (a b : FieldMap) (k : String) :
    fmLookup (a ++ b) k
      = match fmLookup a k with
        | some v => some v
        | none => fmLookup b k := by
  induction a with
  | nil => rfl
  | cons p rest ih =>
    obtain ⟨k0, v0⟩ := p
    by_cases h : (k0 == k) = true
    · simp [fmLookup, h]
    · simp only [List.cons_append, fmLookup, if_neg h]
      exact ih

/-- A conditional singleton segment with a different key never answers a
lookup. -/
theorem fmLookup_condSingle (c : Bool) (k0 k : String) (v : GoValue)
    (h : (k0 == k) = false) :
    fmLookup (if c then [(k0, v)] else []) k = none := by
  cases c <;> simp [fmLookup, h]

/-- The update map of `Controller.UpdateSchedule` answers
`scheduled_slot_from` exactly from the request's slot. -/
theorem lookup_updatesFor_slotFrom (req : UpdateScheduleRequest) :
    fmLookup (Controller.updatesFor req) "scheduled_slot_from"
      = match req.ScheduledSlot with
        | some slot => some (GoValue.vTime slot.From)
        | none => none := by
  unfold Controller.updatesFor
  rw [fmLookup_append, fmLookup_append, fmLookup_append, fmLookup_append,
    fmLookup_condSingle (req.ClientUserID != 0) "client_user_id" "scheduled_slot_from"
      (GoValue.vUuid req.ClientUserID) (by decide),
    fmLookup_condSingle (req.AssignedUserID != 0) "assigned_user_id" "scheduled_slot_from"
      (GoValue.vUuid req.AssignedUserID) (by decide),
    fmLookup_condSingle (req.ServiceName != "") "service_name" "scheduled_slot_from"
      (GoValue.vString req.ServiceName) (by decide),
    fmLookup_condSingle (req.VisitStatus != "") "visit_status" "scheduled_slot_from"
      (GoValue.vString req.VisitStatus) (by decide)]
  rcases req.ScheduledSlot with _ | slot <;> rfl

/-- The update map of `Controller.UpdateSchedule` answers
`scheduled_slot_to` exactly from the request's slot. -/
theorem lookup_updatesFor_slotTo (req : UpdateScheduleRequest) :
    fmLookup (Controller.updatesFor req) "scheduled_slot_to"
      = match req.ScheduledSlot with
        | some slot => some (GoValue.vTime slot.To)
        | none => none := by
  unfold Controller.updatesFor
  rw [fmLookup_append, fmLookup_append, fmLookup_append, fmLookup_append,
    fmLookup_condSingle (req.ClientUserID != 0) "client_user_id" "scheduled_slot_to"
      (GoValue.vUuid req.ClientUserID) (by decide),
    fmLookup_condSingle (req.AssignedUserID != 0) "assigned_user_id" "scheduled_slot_to"
      (GoValue.vUuid req.AssignedUserID) (by decide),
    fmLookup_condSingle (req.ServiceName != "") "service_name" "scheduled_slot_to"
      (GoValue.vString req.ServiceName) (by decide),
    fmLookup_condSingle (req.VisitStatus != "") "visit_status" "scheduled_slot_to"
      (GoValue.vString req.VisitStatus) (by decide)]
  rcases req.ScheduledSlot with _ | slot <;> rfl

/-- Applying a controller update map preserves the slot invariant of a row:
either both bounds are rewritten from a validated slot, or neither is. -/
theorem applyScheduleUpdates_slotOK {s : Schedule} {req : UpdateScheduleRequest}
    (hs : slotOK s)
    (hv : ∀ slot, req.ScheduledSlot = some slot → slot.From ≤ slot.To) :
    slotOK (Repository.applyScheduleUpdates s (Controller.updatesFor req)) := by
  show fmTime (Controller.updatesFor req) "scheduled_slot_from" s.ScheduledSlot.«from»
    ≤ fmTime (Controller.updatesFor req) "scheduled_slot_to" s.ScheduledSlot.«to»
  unfold fmTime
  rw [lookup_updatesFor_slotFrom, lookup_updatesFor_slotTo]
  rcases hslot : req.ScheduledSlot with _ | slot
  · exact hs
  · exact hv slot hslot

/-- The store after a `Repository.UpdateSchedule` with a controller map
keeps the slot invariant. -/
theorem storeSlotOK_afterRepoUpdate {st : Store} {id : Uuid} {req : UpdateScheduleRequest}
    (hst : storeSlotOK st)
    (hv : ∀ slot, req.ScheduledSlot = some slot → slot.From ≤ slot.To) :
    storeSlotOK (Repository.UpdateSchedule st id (Controller.updatesFor req)).2 := by
  unfold Repository.UpdateSchedule
  rcases hf : st.schedules.find? (fun s => s.ID == id) with _ | sch
  · rw [hf]
    exact hst
  · rw [hf]
    intro s hs
    rcases List.mem_map.mp hs with ⟨s0, hs0, rfl⟩
    by_cases h0 : (s0.ID == id) = true
    · rw [if_pos h0]
      exact applyScheduleUpdates_slotOK (hst s0 hs0) hv
    · rw [if_neg h0]
      exact hst s0 hs0

/-- The engine's `UpdateSchedule` either writes nothing or delegates to the
store update. -/
theorem engineUpdateSchedule_state (st : Store) (id : Uuid) (m : FieldMap) :
    (ScheduleUseCase.UpdateSchedule st id m).2 = st
    ∨ (ScheduleUseCase.UpdateSchedule st id m).2 = (Repository.UpdateSchedule st id m).2 := by
  unfold ScheduleUseCase.UpdateSchedule
  split
  · exact Or.inl rfl
  · split
    · exact Or.inl rfl
    · split
      · exact Or.inl rfl
      · split
        · exact Or.inl rfl
        · exact Or.inr rfl

/-- The tail of `Controller.UpdateSchedule` keeps the slot invariant when a
present slot has already been validated. -/
theorem finishUpdate_slotOK {st : Store} {id : Uuid} {req : UpdateScheduleRequest}
    (hst : storeSlotOK st)
    (hv : ∀ slot, req.ScheduledSlot = some slot → slot.From ≤ slot.To) :
    storeSlotOK (Controller.finishUpdate st id req).2 := by
  unfold Controller.finishUpdate
  split
  · exact hst
  · rcases engineUpdateSchedule_state st id (Controller.updatesFor req) with h | h
    · rw [h]
      exact hst
    · rw [h]
      exact storeSlotOK_afterRepoUpdate hst hv

/-- `Controller.UpdateSchedule` keeps the slot invariant of every stored
schedule. -/
theorem ctrlUpdate_slotOK (st : Store) (id : Uuid) (req : UpdateScheduleRequest)
    (hst : storeSlotOK st) :
    storeSlotOK (Controller.UpdateSchedule st id req).2 := by
  unfold Controller.UpdateSchedule
  split
  · exact hst
  · split
    · split
      · exact hst
      · split
        · exact hst
        · rename_i slot heq hz hgt
          refine finishUpdate_slotOK hst (fun slot2 heq2 => ?_)
          rw [heq] at heq2
          cases heq2
          exact not_lt.mp hgt
    · rename_i heq
      refine finishUpdate_slotOK hst (fun slot2 heq2 => ?_)
      rw [heq] at heq2
      cases heq2

/-- `Controller.CreateSchedule` keeps the slot invariant of every stored
schedule, the created row included. -/
theorem ctrlCreate_slotOK (st : Store) (req : CreateScheduleRequest)
    (hst : storeSlotOK st) :
    storeSlotOK (Controller.CreateSchedule st req).2 := by
  unfold Controller.CreateSchedule
  split
  · exact hst
  · split
    · exact hst
    · split
      · exact hst
      · split
        · exact hst
        · rename_i h1 h2 hgt h4
          dsimp only
          unfold ScheduleUseCase.CreateSchedule
          split
          · exact hst
          · split
            · exact hst
            · unfold Repository.Create
              dsimp only
              intro s hs
              rcases List.mem_append.mp hs with hs | hs
              · exact hst s hs
              · rcases List.mem_singleton.mp hs with rfl
                exact not_lt.mp hgt

/-- A slot-violating `Controller.CreateSchedule` is rejected with a
`ValidationError` and writes nothing. -/
theorem ctrlCreate_reject_badSlot (st : Store) (req : CreateScheduleRequest)
    (hbad : req.ScheduledSlot.From > req.ScheduledSlot.To) :
    ∃ msg, (Controller.CreateSchedule st req).1 = .error ⟨msg, .validationError⟩
      ∧ (Controller.CreateSchedule st req).2 = st := by
  unfold Controller.CreateSchedule
  by_cases h1 : (req.ClientUserID == 0) = true
  · rw [if_pos h1]
    exact ⟨_, rfl, rfl⟩
  · rw [if_neg h1]
    by_cases h2 : (req.ScheduledSlot.From == 0 || req.ScheduledSlot.To == 0) = true
    · rw [if_pos h2]
      exact ⟨_, rfl, rfl⟩
    · rw [if_neg h2, if_pos hbad]
      exact ⟨_, rfl, rfl⟩

/-- `GetScheduleWithClientInfo` reduces to the client lookup once the
schedule is found. -/
theorem getWithClientInfo_reduce {st : Store} {id : Uuid} {sched : Schedule}
    (hfind : Repository.GetScheduleByID st id = .ok sched) :
    ScheduleUseCase.GetScheduleWithClientInfo st id
      = match UserRepository.GetByID st sched.ClientUserID with
        | .error _ => .ok (sched, none)
        | .ok client => .ok (sched, some client) := by
  unfold ScheduleUseCase.GetScheduleWithClientInfo
  rw [hfind]

/-- `Controller.UpdateSchedule` reduces to its slot validation chain once
the schedule exists. -/
theorem ctrlUpdate_reduce {st : Store} {id : Uuid} {p : Schedule × Option User}
    (hgp : ScheduleUseCase.GetScheduleWithClientInfo st id = .ok p)
    (req : UpdateScheduleRequest) :
    Controller.UpdateSchedule st id req
      = match req.ScheduledSlot with
        | some slot =>
          if slot.From == 0 || slot.To == 0 then
            (.error ⟨"Both From and To dates must be provided for ScheduledSlot", .validationError⟩, st)
          else if slot.From > slot.To then
            (.error ⟨"ScheduledSlot 'From' cannot be after 'To'", .validationError⟩, st)
          else
            Controller.finishUpdate st id req
        | none => Controller.finishUpdate st id req := by
  unfold Controller.UpdateSchedule
  rw [hgp]

/-- A slot-violating `Controller.UpdateSchedule` on an existing schedule is
rejected with a `ValidationError` and writes nothing. -/
theorem ctrlUpdate_reject_badSlot (st : Store) (id : Uuid) (req : UpdateScheduleRequest)
    (sched : Schedule) (slot : ScheduledSlotRequest)
    (hfind : Repository.GetScheduleByID st id = .ok sched)
    (hslot : req.ScheduledSlot = some slot)
    (hbad : slot.From > slot.To) :
    ∃ msg, (Controller.UpdateSchedule st id req).1 = .error ⟨msg, .validationError⟩
      ∧ (Controller.UpdateSchedule st id req).2 = st := by
  have hg : ∃ p, ScheduleUseCase.GetScheduleWithClientInfo st id = .ok p := by
    rw [getWithClientInfo_reduce hfind]
    split
    · exact ⟨_, rfl⟩
    · exact ⟨_, rfl⟩
  obtain ⟨p, hgp⟩ := hg
  rw [ctrlUpdate_reduce hgp req]
  simp only [hslot]
  by_cases hz : (slot.From == 0 || slot.To == 0) = true
  · rw [if_pos hz]
    exact ⟨_, rfl, rfl⟩
  · rw [if_neg hz, if_pos hbad]
    exact ⟨_, rfl, rfl⟩

/-- C4: starting from a store whose schedules all satisfy
`scheduledSlot.from <= scheduledSlot.to`, the invariant still holds after
`CreateSchedule` and after every `UpdateSchedule`; a creation or an update
(on an existing schedule) whose slot violates `from <= to` is rejected with
a `ValidationError` and the store — hence the stored schedule — is
unchanged. -/
theorem slot_invariant_enforced (st : Store) (hst : storeSlotOK st) :
    (∀ req : CreateScheduleRequest,
       storeSlotOK (Controller.CreateSchedule st req).2
       ∧ (req.ScheduledSlot.From > req.ScheduledSlot.To →
          ∃ msg, (Controller.CreateSchedule st req).1 = .error ⟨msg, .validationError⟩
            ∧ (Controller.CreateSchedule st req).2 = st))
    ∧ (∀ id req, storeSlotOK (Controller.UpdateSchedule st id req).2
       ∧ (∀ sched slot, Repository.GetScheduleByID st id = .ok sched →
          req.ScheduledSlot = some slot → slot.From > slot.To →
          ∃ msg, (Controller.UpdateSchedule st id req).1 = .error ⟨msg, .validationError⟩
            ∧ (Controller.UpdateSchedule st id req).2 = st)) :=
  ⟨fun req => ⟨ctrlCreate_slotOK st req hst, fun hbad => ctrlCreate_reject_badSlot st req hbad⟩,
   fun id req => ⟨ctrlUpdate_slotOK st id req hst,
     fun sched slot hfind hslot hbad =>
       ctrlUpdate_reject_badSlot st id req sched slot hfind hslot hbad⟩⟩

/-- C4 witness: on the sample store, a create request with slot `[300, 200]`
is rejected with a `ValidationError` and the store is unchanged. -/
theorem slot_invariant_enforced_witness :
    ∃ msg,
      (Controller.CreateSchedule baseStore
          ⟨1, 2, "svc", ⟨300, 200⟩, [⟨"t", ""⟩]⟩).1 = .error ⟨msg, .validationError⟩
      ∧ (Controller.CreateSchedule baseStore
          ⟨1, 2, "svc", ⟨300, 200⟩, [⟨"t", ""⟩]⟩).2 = baseStore :=
  ((slot_invariant_enforced baseStore
      (by intro s hs; rcases List.mem_singleton.mp hs with rfl;
          exact (by decide : (100 : GoTime) ≤ 200))).1
    ⟨1, 2, "svc", ⟨300, 200⟩, [⟨"t", ""⟩]⟩).2 (by decide)

end Caregiver
